import Mathlib

/-!
Verification of the branch-protection audit script
(`.github/scripts/branch_protection_audit.py`).

The script is a single linear pipeline: list an organizations public
repositories page by page, query branch-protection rules per repository
(modern rules endpoint, falling back to the legacy classic-protection
endpoint), normalize either response into one row per repository, write a
CSV, and notify a chat channel.  The definitions below are a shallow
embedding of that script: HTTP responses become explicit outcome values,
JSON payloads become typed structures holding exactly the fields the
script reads, and Python truthiness is made explicit wherever the script
relies on it.
-/

namespace BranchProtectionAudit

/-- The single-quote character, used by the script inside the
no-protection issue message. -/
def sq : String := String.singleton (Char.ofNat 39)

/-- Parameters object of a ruleset rule.  The script reads only the keys
`required_approving_review_count` and `count`; values are JSON integers. -/
structure RuleParams where
  required_approving_review_count : Option Nat
  count : Option Nat
deriving DecidableEq

/-- The empty parameters object: `rule.get("parameters") or {}` falls back
to this when the key is absent or falsy. -/
def empty_params : RuleParams := { required_approving_review_count := none, count := none }

/-- One element of the array returned by the modern rules endpoint:
`{type, parameters}`.  `type` is `r.get("type")`, absent keys become
`none`. -/
structure Rule where
  type : Option String
  parameters : Option RuleParams
deriving DecidableEq

/-- The nested `required_pull_request_reviews` object of a classic
protection response; the script reads only the approval count. -/
structure PRReviews where
  required_approving_review_count : Option Nat
deriving DecidableEq

/-- A (truthy) classic branch-protection response body.
`required_pull_request_reviews` is `none` when the key is absent or falsy;
`restrictions` records the truthiness of the `restrictions` field;
`allow_force_pushes` is `some b` when the key is present, with `b` the
truthiness of its value. -/
structure Classic where
  required_pull_request_reviews : Option PRReviews
  restrictions : Bool
  allow_force_pushes : Option Bool
deriving DecidableEq

/-- A repository descriptor from the listing endpoint: `name` is read by
direct indexing, `default_branch` via `.get` with default "main",
`archived` via `.get` with default false. -/
structure RepoDesc where
  name : String
  default_branch : Option String
  archived : Bool
deriving DecidableEq

/-- Outcome of one blocking HTTP GET: either a response with a status code
and a (typed) JSON body, or a transport-level exception (timeout,
connection error).  `requests.get` raises in the latter case. -/
inductive HttpOutcome (α : Type) where
  | resp (status : Nat) (body : α)
  | exn
deriving DecidableEq

/-- `get_json(url)`: 200 returns the body, 404 returns None silently, any
other status logs a WARN line and returns None.  There is no try/except
around `requests.get`, so a transport exception propagates to the caller,
modelled as `Except.error ()`.  The returned list collects the WARN log
lines (the response-text excerpt of the real message is elided). -/
def get_json {α : Type} (url : String) (o : HttpOutcome α) : Except Unit (Option α × List String) :=
  match o with
  | .resp s b =>
    if s = 200 then .ok (some b, [])
    else if s = 404 then .ok (none, [])
    else .ok (none, ["Failed GET " ++ url ++ " -> " ++ toString s])
  | .exn => .error ()

/-- `try_get_classic_protection`: 200 returns the body, any other status
returns None without logging.  As in `get_json` there is no try/except, so
a transport exception propagates. -/
def try_get_classic_protection (o : HttpOutcome Classic) : Except Unit (Option Classic) :=
  match o with
  | .resp s b => if s = 200 then .ok (some b) else .ok none
  | .exn => .error ()

/-- The CSV row for one repository, exactly the dict the script builds:
all seven values are strings. -/
structure Row where
  repository : String
  defaultBranch : String
  protectionExists : String
  requiredPullRequest : String
  requiredApprovalsCount : String
  restrictDeletions : String
  blockForcePushes : String
deriving DecidableEq

/-- The initial row: protection/PR/deletions/force-push all "NO", approval
count empty. -/
def init_row (name branch : String) : Row :=
  { repository := name
    defaultBranch := branch
    protectionExists := "NO"
    requiredPullRequest := "NO"
    requiredApprovalsCount := ""
    restrictDeletions := "NO"
    blockForcePushes := "NO" }

/-- Membership test mirroring `"t" in rule_types` where
`rule_types = {r.get("type"): r for r in rules}`. -/
def rule_types_mem (rules : List Rule) (t : String) : Bool :=
  rules.any (fun r => r.type = some t)

/-- Lookup mirroring `rule_types["t"]`: the dict comprehension keeps the
last rule of each type. -/
def rule_of_type (rules : List Rule) (t : String) : Option Rule :=
  (rules.filter (fun r => r.type = some t)).getLast?

/-- Python truthiness of an optional integer: `None` and `0` are falsy. -/
def truthyNat : Option Nat → Option Nat
  | some n => if n = 0 then none else some n
  | none => none

/-- `params.get("required_approving_review_count") or params.get("count")`
followed by `if count:` — the extracted value is the first truthy one, and
a falsy result (absent or zero) counts as no value. -/
def extract_count (p : RuleParams) : Option Nat :=
  match truthyNat p.required_approving_review_count with
  | some n => some n
  | none => truthyNat p.count

/-- Modern path, `pull_request` rule: presence sets the PR flag, absence
records an issue. -/
def rules_pr_step (row : Row) (rules : List Rule) : Row × List String :=
  if rule_types_mem rules "pull_request" then
    ({ row with requiredPullRequest := "YES" }, [])
  else (row, ["Require pull request before merging not enabled"])

/-- Modern path, `required_approving_review_count` rule: extract a count
from its parameters; a truthy count is recorded and compared with 2, a
falsy one records the count-missing issue, an absent rule records the
rule-missing issue. -/
def rules_approvals_step (row : Row) (issues : List String) (rules : List Rule) : Row × List String :=
  match rule_of_type rules "required_approving_review_count" with
  | some r =>
    match extract_count (r.parameters.getD empty_params) with
    | some count =>
      if count ≠ 2 then
        ({ row with requiredApprovalsCount := toString count },
          issues ++ ["Required approvals = " ++ toString count ++ ", expected 2"])
      else ({ row with requiredApprovalsCount := toString count }, issues)
    | none => (row, issues ++ ["Approvals rule present but count missing"])
  | none => (row, issues ++ ["Required approving reviews rule missing"])

/-- Modern path, `restrict_deletions` rule. -/
def rules_deletions_step (row : Row) (issues : List String) (rules : List Rule) : Row × List String :=
  if rule_types_mem rules "restrict_deletions" then
    ({ row with restrictDeletions := "YES" }, issues)
  else (row, issues ++ ["Restrict deletions rule not enabled"])

/-- Modern path, `non_fast_forward` rule. -/
def rules_force_push_step (row : Row) (issues : List String) (rules : List Rule) : Row × List String :=
  if rule_types_mem rules "non_fast_forward" then
    ({ row with blockForcePushes := "YES" }, issues)
  else (row, issues ++ ["Block force pushes rule not enabled"])

/-- The modern-rules branch of the per-repository check (rules list
non-empty): protection exists, then the four rule checks in program
order. -/
def check_rules (name branch : String) (rules : List Rule) : Row × List String :=
  let s1 := rules_pr_step { init_row name branch with protectionExists := "YES" } rules
  let s2 := rules_approvals_step s1.1 s1.2 rules
  let s3 := rules_deletions_step s2.1 s2.2 rules
  rules_force_push_step s3.1 s3.2 rules

/-- Legacy path, `required_pull_request_reviews`: absence (or falsiness)
records an issue; presence sets the PR flag, renders the count
(`str(int(cnt)) if cnt else ""`, default 0) and compares it with 2. -/
def classic_reviews_step (row : Row) (c : Classic) : Row × List String :=
  match c.required_pull_request_reviews with
  | none => (row, ["Require pull request before merging not enabled"])
  | some pr =>
    let cnt := pr.required_approving_review_count.getD 0
    let row2 := { row with
      requiredPullRequest := "YES"
      requiredApprovalsCount := if cnt ≠ 0 then toString cnt else "" }
    if cnt ≠ 2 then
      (row2, ["Required approvals = " ++ toString cnt ++ ", expected 2"])
    else (row2, [])

/-- Legacy path: a truthy `restrictions` field sets the
deletion-restriction column. -/
def classic_restrictions_step (row : Row) (c : Classic) : Row :=
  if c.restrictions then { row with restrictDeletions := "YES" } else row

/-- Legacy path: an `allow_force_pushes` key present with a falsy value
sets the force-push-block column. -/
def classic_force_push_step (row : Row) (c : Classic) : Row :=
  match c.allow_force_pushes with
  | some v => if !v then { row with blockForcePushes := "YES" } else row
  | none => row

/-- The classic-protection branch of the per-repository check (200
response from the legacy endpoint). -/
def check_classic (name branch : String) (c : Classic) : Row × List String :=
  let s1 := classic_reviews_step { init_row name branch with protectionExists := "YES" } c
  (classic_force_push_step (classic_restrictions_step s1.1 c) c, s1.2)

/-- The issue recorded when neither endpoint yields protection data. -/
def no_protection_issue (branch : String) : String :=
  "No branch protection found on " ++ sq ++ branch ++ sq

/-- Result of checking one repository: the CSV row, the issue list the
repository carries into the ok/missing partition, and whether the legacy
endpoint was consulted. -/
structure CheckResult where
  row : Row
  issues : List String
  legacyQueried : Bool
deriving DecidableEq

/-- The per-repository body of `main`: `rules` is the already-resolved
modern response after `or []`; `classic` is the resolved legacy response,
consulted only when `rules` is empty (`if not rules`). -/
def check_repo (name branch : String) (rules : List Rule) (classic : Option Classic) : CheckResult :=
  if rules.isEmpty then
    match classic with
    | some c =>
      let s := check_classic name branch c
      { row := s.1, issues := s.2, legacyQueried := true }
    | none =>
      { row := init_row name branch
        issues := [no_protection_issue branch]
        legacyQueried := true }
  else
    let s := check_rules name branch rules
    { row := s.1, issues := s.2, legacyQueried := false }

/-- The `while True` pagination loop of `list_repos`, made terminating
with explicit fuel: `fetch` maps a page number to the resolved
`get_json` result (`none` for a failed fetch).  A `none` or empty page
breaks without appending; a short page (fewer than 100 entries) is
appended and then breaks; a full page is appended and the loop continues
with the next page number.  The second component counts the page requests
issued.  Exhausted fuel (`none` result) marks non-termination within the
allotted number of iterations. -/
def list_repos_loop (fetch : Nat → Option (List RepoDesc)) :
    Nat → Nat → List RepoDesc → Nat → Option (List RepoDesc × Nat)
  | 0, _, _, _ => none
  | fuel + 1, page, acc, reqs =>
    match fetch page with
    | none => some (acc, reqs + 1)
    | some data =>
      if data.isEmpty then some (acc, reqs + 1)
      else if data.length < 100 then some (acc ++ data, reqs + 1)
      else list_repos_loop fetch fuel (page + 1) (acc ++ data) (reqs + 1)

/-- `list_repos`: run the pagination loop from page 1, then filter out
archived repositories. -/
def list_repos (fetch : Nat → Option (List RepoDesc)) (fuel : Nat) :
    Option (List RepoDesc × Nat) :=
  match list_repos_loop fetch fuel 1 [] 0 with
  | some (repos, reqs) => some (repos.filter (fun r => !r.archived), reqs)
  | none => none

/-- The page function of a server holding the fixed repository list `l`
split into pages of 100: page `p` (1-based) serves entries
`(p-1)*100 .. p*100-1`, and every request succeeds. -/
def page_slice (l : List RepoDesc) (page : Nat) : Option (List RepoDesc) :=
  some ((l.drop ((page - 1) * 100)).take 100)

/-- One entry of the `missing` accumulation list:
`{"repo": name, "issues": issues}`. -/
structure MissingEntry where
  repo : String
  issues : List String
deriving DecidableEq

/-- Input for one iteration of the main loop: the repository descriptor
together with the resolved responses of its two protection endpoints. -/
structure RepoInput where
  desc : RepoDesc
  rulesResp : Option (List Rule)
  classicResp : Option Classic
deriving DecidableEq

/-- One iteration of the main loop applied to one repository:
`default_branch` defaults to "main", `get_rules` turns a missing rules
response into `[]` (`or []`). -/
def process_repo (inp : RepoInput) : CheckResult :=
  check_repo inp.desc.name (inp.desc.default_branch.getD "main")
    (inp.rulesResp.getD []) inp.classicResp

/-- Accumulator update of the main loop: the row is always appended; the
repository name goes to `ok` when its issue list is empty, otherwise the
name with its issues goes to `missing`. -/
def process_step (acc : List Row × List String × List MissingEntry)
    (inp : RepoInput) : List Row × List String × List MissingEntry :=
  let res := process_repo inp
  (acc.1 ++ [res.row],
    if res.issues.isEmpty then acc.2.1 ++ [inp.desc.name] else acc.2.1,
    if res.issues.isEmpty then acc.2.2
    else acc.2.2 ++ [{ repo := inp.desc.name, issues := res.issues }])

/-- The main loop over the listed repositories, producing the `rows`,
`ok` and `missing` lists. -/
def process (inputs : List RepoInput) : List Row × List String × List MissingEntry :=
  inputs.foldl process_step ([], [], [])

/-- The fixed CSV header, in the order the script writes it. -/
def fieldnames : List String :=
  ["Repository", "Default Branch", "Default branch protection exists",
   "Required pull request", "Required approvals count",
   "Restrict deletions", "Block Force pushes"]

/-- The cells of one CSV data row, in header order (the values the
`DictWriter` writes for one row dict). -/
def row_cells (r : Row) : List String :=
  [r.repository, r.defaultBranch, r.protectionExists, r.requiredPullRequest,
   r.requiredApprovalsCount, r.restrictDeletions, r.blockForcePushes]

/-- The CSV contents as a list of cell lists: the header line followed by
one line per row, in order. -/
def write_csv (rows : List Row) : List (List String) :=
  fieldnames :: rows.map row_cells

/-- Python truthiness of an environment variable: unset (`None`) and the
empty string are falsy. -/
def truthyStr : Option String → Bool
  | some s => !s.isEmpty
  | none => false

/-- Which notification path the end of `main` takes. -/
inductive NotifyAction where
  | slackUpload
  | webhookPost
  | noneAtAll
deriving DecidableEq

/-- The notifier selection: `if SLACK_TOKEN and SLACK_CHANNEL: upload`
`elif SLACK_WEBHOOK: post_webhook` `else:` nothing. -/
def notify_action (slack_token slack_channel slack_webhook : Option String) :
    NotifyAction :=
  if truthyStr slack_token && truthyStr slack_channel then .slackUpload
  else if truthyStr slack_webhook then .webhookPost
  else .noneAtAll

/-! ## Concrete sample values used by witnesses -/

/-- A classic-protection body with no reviews, no restrictions and no
force-push field. -/
def demo_classic_empty : Classic :=
  { required_pull_request_reviews := none, restrictions := false, allow_force_pushes := none }

/-- An approvals rule whose parameters carry the given count under the
`required_approving_review_count` key. -/
def approvals_rule (n : Nat) : Rule :=
  { type := some "required_approving_review_count"
    parameters := some { required_approving_review_count := some n, count := none } }

/-- A loop input with the given name and branch, a successful rules
response, and no classic-protection data. -/
def rules_only_input (name branch : String) (rules : List Rule) : RepoInput :=
  { desc := { name := name, default_branch := some branch, archived := false }
    rulesResp := some rules
    classicResp := none }

/-! ## Helper lemmas -/

/-- A type whose `rule_of_type` lookup succeeds occurs in the rules list,
so the list is non-empty. -/
theorem rule_of_type_isEmpty_false {rules : List Rule} {t : String} {r : Rule}
    (h : rule_of_type rules t = some r) : rules.isEmpty = false := by
  cases rules with
  | nil => simp [rule_of_type] at h
  | cons a l => rfl

/-! ## C1 -/

/-- C1 counterexample: the claim asserts every transient failure,
including a timeout or transport exception, is caught and treated as no
data, and that a 404 or other failure is logged as a warning.  At the
concrete input `HttpOutcome.exn` (a transport exception) both `get_json`
and `try_get_classic_protection` propagate the exception
(`Except.error`) instead of returning no data, and at a 404 response
`get_json` returns no data with an empty warning-log list. -/
theorem c1_counterexample :
    get_json "u" (HttpOutcome.exn : HttpOutcome (List Rule)) = Except.error () ∧
    try_get_classic_protection (HttpOutcome.exn : HttpOutcome Classic) = Except.error () ∧
    get_json "u" (HttpOutcome.resp 404 ([] : List Rule)) = Except.ok (none, []) :=
  ⟨rfl, rfl, rfl⟩

/-- C1 (amended): on the listing, rules and classic-protection fetches,
any non-200 HTTP response is treated as no data and execution proceeds:
`get_json` logs a warning for statuses other than 404 and returns None
silently on 404, while `try_get_classic_protection` returns None without
logging; a timeout or transport exception on these fetches is not caught
and propagates out of the fetch. -/
theorem c1_amended (url : String) (s : Nat) (b : List Rule) (c : Classic)
    (h : s ≠ 200) :
    get_json url (HttpOutcome.resp s b) =
      Except.ok (none, if s = 404 then []
        else ["Failed GET " ++ url ++ " -> " ++ toString s]) ∧
    try_get_classic_protection (HttpOutcome.resp s c) = Except.ok none ∧
    get_json url (HttpOutcome.exn : HttpOutcome (List Rule)) = Except.error () ∧
    try_get_classic_protection (HttpOutcome.exn : HttpOutcome Classic) = Except.error () := by
  refine ⟨?_, ?_, rfl, rfl⟩
  · simp only [get_json, if_neg h]
    split <;> simp_all
  · simp [try_get_classic_protection, h]

/-- C1 witness: the amended statement at status 500. -/
theorem c1_amended_witness :
    get_json "u" (HttpOutcome.resp 500 ([] : List Rule)) =
      Except.ok (none, if 500 = 404 then []
        else ["Failed GET " ++ "u" ++ " -> " ++ toString 500]) ∧
    try_get_classic_protection (HttpOutcome.resp 500 demo_classic_empty) = Except.ok none ∧
    get_json "u" (HttpOutcome.exn : HttpOutcome (List Rule)) = Except.error () ∧
    try_get_classic_protection (HttpOutcome.exn : HttpOutcome Classic) = Except.error () :=
  c1_amended "u" 500 [] demo_classic_empty (by decide)

/-! ## C2 -/

/-- C2: when the modern rules endpoint yields an empty or missing result
and the legacy endpoint answers 404 (so `try_get_classic_protection`
yields no data), the record has protection-exists "NO" and its issue list
is exactly the single string naming the default branch. -/
theorem c2 (name branch : String) (rulesResp : Option (List Rule)) (body : Classic)
    (h : rulesResp = none ∨ rulesResp = some []) :
    try_get_classic_protection (HttpOutcome.resp 404 body) = Except.ok none ∧
    (check_repo name branch (rulesResp.getD []) none).row.protectionExists = "NO" ∧
    (check_repo name branch (rulesResp.getD []) none).issues =
      ["No branch protection found on " ++ sq ++ branch ++ sq] := by
  rcases h with h | h <;> subst h <;> exact ⟨rfl, rfl, rfl⟩

/-- C2 witness: the statement at a concrete repository and branch. -/
theorem c2_witness :
    try_get_classic_protection (HttpOutcome.resp 404 demo_classic_empty) = Except.ok none ∧
    (check_repo "repo1" "main" ((none : Option (List Rule)).getD []) none).row.protectionExists = "NO" ∧
    (check_repo "repo1" "main" ((none : Option (List Rule)).getD []) none).issues =
      ["No branch protection found on " ++ sq ++ "main" ++ sq] :=
  c2 "repo1" "main" none demo_classic_empty (Or.inl rfl)

/-! ## Step lemmas for the modern rules path -/

/-- When the approvals rule is present and a truthy count is extracted,
the approvals step records the count and flags a mismatch exactly when
the count differs from 2. -/
theorem rules_approvals_step_count {rules : List Rule} {r : Rule} {count : Nat}
    (hr : rule_of_type rules "required_approving_review_count" = some r)
    (hc : extract_count (r.parameters.getD empty_params) = some count)
    (row : Row) (is : List String) :
    rules_approvals_step row is rules =
      if count = 2 then ({ row with requiredApprovalsCount := toString count }, is)
      else ({ row with requiredApprovalsCount := toString count },
        is ++ ["Required approvals = " ++ toString count ++ ", expected 2"]) := by
  unfold rules_approvals_step
  rw [hr]
  simp only [hc]
  by_cases h : count = 2 <;> simp [h]

/-- The pull-request step never touches the approval-count column and
contributes at most its fixed issue string. -/
theorem rules_pr_step_cases (row : Row) (rules : List Rule) :
    ((rules_pr_step row rules).1.requiredApprovalsCount = row.requiredApprovalsCount) ∧
    ((rules_pr_step row rules).2 = [] ∨
      (rules_pr_step row rules).2 = ["Require pull request before merging not enabled"]) := by
  unfold rules_pr_step
  split
  · exact ⟨rfl, Or.inl rfl⟩
  · exact ⟨rfl, Or.inr rfl⟩

/-- The deletions step never touches the approval-count column and either
keeps the issue list or appends its fixed issue string. -/
theorem rules_deletions_step_cases (row : Row) (is : List String) (rules : List Rule) :
    ((rules_deletions_step row is rules).1.requiredApprovalsCount = row.requiredApprovalsCount) ∧
    ((rules_deletions_step row is rules).2 = is ∨
      (rules_deletions_step row is rules).2 = is ++ ["Restrict deletions rule not enabled"]) := by
  unfold rules_deletions_step
  split
  · exact ⟨rfl, Or.inl rfl⟩
  · exact ⟨rfl, Or.inr rfl⟩

/-- The force-push step never touches the approval-count column and
either keeps the issue list or appends its fixed issue string. -/
theorem rules_force_push_step_cases (row : Row) (is : List String) (rules : List Rule) :
    ((rules_force_push_step row is rules).1.requiredApprovalsCount = row.requiredApprovalsCount) ∧
    ((rules_force_push_step row is rules).2 = is ∨
      (rules_force_push_step row is rules).2 = is ++ ["Block force pushes rule not enabled"]) := by
  unfold rules_force_push_step
  split
  · exact ⟨rfl, Or.inl rfl⟩
  · exact ⟨rfl, Or.inr rfl⟩

/-- With the rules list non-empty, `check_repo` takes the modern path. -/
theorem check_repo_rules_path {rules : List Rule} (hne : rules.isEmpty = false)
    (name branch : String) (classic : Option Classic) :
    check_repo name branch rules classic =
      { row := (check_rules name branch rules).1,
        issues := (check_rules name branch rules).2,
        legacyQueried := false } := by
  unfold check_repo
  rw [hne]
  rfl

/-- Membership in the issue list survives the deletions step. -/
theorem rules_deletions_step_mem {s : String} {is : List String} (h : s ∈ is)
    (row : Row) (rules : List Rule) : s ∈ (rules_deletions_step row is rules).2 := by
  rcases (rules_deletions_step_cases row is rules).2 with h2 | h2 <;> rw [h2] <;> simp [h]

/-- Membership in the issue list survives the force-push step. -/
theorem rules_force_push_step_mem {s : String} {is : List String} (h : s ∈ is)
    (row : Row) (rules : List Rule) : s ∈ (rules_force_push_step row is rules).2 := by
  rcases (rules_force_push_step_cases row is rules).2 with h2 | h2 <;> rw [h2] <;> simp [h]

/-- Specialization of `rules_approvals_step_count` to a count different
from 2: the count is recorded and the mismatch issue appended. -/
theorem rules_approvals_step_count_ne2 {rules : List Rule} {r : Rule} {count : Nat}
    (hr : rule_of_type rules "required_approving_review_count" = some r)
    (hc : extract_count (r.parameters.getD empty_params) = some count)
    (h2 : count ≠ 2) (row : Row) (is : List String) :
    rules_approvals_step row is rules =
      ({ row with requiredApprovalsCount := toString count },
        is ++ ["Required approvals = " ++ toString count ++ ", expected 2"]) := by
  rw [rules_approvals_step_count hr hc, if_neg h2]

/-- Specialization of `rules_approvals_step_count` to count 2: the count
is recorded and no issue is appended. -/
theorem rules_approvals_step_count_eq2 {rules : List Rule} {r : Rule}
    (hr : rule_of_type rules "required_approving_review_count" = some r)
    (hc : extract_count (r.parameters.getD empty_params) = some 2)
    (row : Row) (is : List String) :
    rules_approvals_step row is rules =
      ({ row with requiredApprovalsCount := toString 2 }, is) := by
  rw [rules_approvals_step_count hr hc, if_pos rfl]

/-- The deletions step followed by the force-push step only adds issues
from the two fixed strings. -/
theorem rules_tail_steps_mem {row : Row} {is : List String} {rules : List Rule} {s : String}
    (hs : s ∈ (rules_force_push_step (rules_deletions_step row is rules).1
      (rules_deletions_step row is rules).2 rules).2) :
    s ∈ is ∨ s = "Restrict deletions rule not enabled" ∨
      s = "Block force pushes rule not enabled" := by
  rcases (rules_force_push_step_cases (rules_deletions_step row is rules).1
      (rules_deletions_step row is rules).2 rules).2 with h4 | h4 <;>
    rw [h4] at hs <;>
    rcases (rules_deletions_step_cases row is rules).2 with h3 | h3 <;>
    rw [h3] at hs <;>
    (try simp only [List.mem_append, List.mem_singleton] at hs) <;> tauto

/-- The deletions step followed by the force-push step does not change
the approval-count column. -/
theorem rules_tail_steps_col (row : Row) (is : List String) (rules : List Rule) :
    (rules_force_push_step (rules_deletions_step row is rules).1
      (rules_deletions_step row is rules).2 rules).1.requiredApprovalsCount =
      row.requiredApprovalsCount := by
  rw [(rules_force_push_step_cases _ _ _).1, (rules_deletions_step_cases _ _ _).1]

/-- Under an extracted count, the modern check records the count in the
approval column. -/
theorem check_rules_extracted_col {rules : List Rule} {r : Rule} {count : Nat}
    (hr : rule_of_type rules "required_approving_review_count" = some r)
    (hc : extract_count (r.parameters.getD empty_params) = some count)
    (name branch : String) :
    (check_rules name branch rules).1.requiredApprovalsCount = toString count := by
  simp only [check_rules]
  by_cases h2 : count = 2
  · subst h2
    rw [rules_approvals_step_count_eq2 hr hc]
    exact rules_tail_steps_col _ _ _
  · rw [rules_approvals_step_count_ne2 hr hc h2]
    exact rules_tail_steps_col _ _ _

/-- Under an extracted count different from 2, the mismatch issue is in
the issue list of the modern check. -/
theorem check_rules_extracted_ne2 {rules : List Rule} {r : Rule} {count : Nat}
    (hr : rule_of_type rules "required_approving_review_count" = some r)
    (hc : extract_count (r.parameters.getD empty_params) = some count)
    (h2 : count ≠ 2) (name branch : String) :
    ("Required approvals = " ++ toString count ++ ", expected 2") ∈
      (check_rules name branch rules).2 := by
  simp only [check_rules]
  rw [rules_approvals_step_count_ne2 hr hc h2]
  exact rules_force_push_step_mem (rules_deletions_step_mem (by simp) _ _) _ _

/-- Under an extracted count equal to 2, every issue of the modern check
is one of the three fixed non-approval issue strings. -/
theorem check_rules_extracted_eq2 {rules : List Rule} {r : Rule}
    (hr : rule_of_type rules "required_approving_review_count" = some r)
    (hc : extract_count (r.parameters.getD empty_params) = some 2)
    (name branch : String) :
    ∀ s ∈ (check_rules name branch rules).2,
      s = "Require pull request before merging not enabled" ∨
      s = "Restrict deletions rule not enabled" ∨
      s = "Block force pushes rule not enabled" := by
  intro s hs
  simp only [check_rules] at hs
  rw [rules_approvals_step_count_eq2 hr hc] at hs
  rcases rules_tail_steps_mem hs with h | h | h
  · rcases (rules_pr_step_cases { init_row name branch with protectionExists := "YES" }
        rules).2 with h1 | h1 <;> rw [h1] at h <;> simp_all
  · exact Or.inr (Or.inl h)
  · exact Or.inr (Or.inr h)

/-! ## C3 -/

/-- C3: in the modern rules path, when a truthy approval count is
extracted from the approvals rule and it is not 2, the mismatch issue
naming the count is recorded, the count is written to the approval
column, and the repository lands in the `missing` list carrying its
issues. -/
theorem c3 (name branch : String) (rules : List Rule) (r : Rule) (count : Nat)
    (hr : rule_of_type rules "required_approving_review_count" = some r)
    (hc : extract_count (r.parameters.getD empty_params) = some count)
    (h2 : count ≠ 2) :
    ("Required approvals = " ++ toString count ++ ", expected 2") ∈
      (check_repo name branch rules none).issues ∧
    (check_repo name branch rules none).row.requiredApprovalsCount = toString count ∧
    (process [rules_only_input name branch rules]).2.2 =
      [{ repo := name, issues := (check_repo name branch rules none).issues }] := by
  have hne := rule_of_type_isEmpty_false hr
  have hmem : ("Required approvals = " ++ toString count ++ ", expected 2") ∈
      (check_repo name branch rules none).issues := by
    rw [check_repo_rules_path hne]
    exact check_rules_extracted_ne2 hr hc h2 name branch
  refine ⟨hmem, ?_, ?_⟩
  · rw [check_repo_rules_path hne]
    exact check_rules_extracted_col hr hc name branch
  · have hprocess : process_repo (rules_only_input name branch rules) =
        check_repo name branch rules none := rfl
    have hnonempty : ((check_repo name branch rules none).issues).isEmpty = false := by
      rcases hq : (check_repo name branch rules none).issues with _ | ⟨a, l⟩
      · rw [hq] at hmem
        exact absurd hmem (List.not_mem_nil _)
      · rfl
    simp only [process, List.foldl, process_step, hprocess, hnonempty,
      Bool.false_eq_true, if_false, List.nil_append]
    rfl

/-- C3 witness: a single approvals rule with count 1. -/
theorem c3_witness :
    ("Required approvals = " ++ toString 1 ++ ", expected 2") ∈
      (check_repo "repo1" "main" [approvals_rule 1] none).issues ∧
    (check_repo "repo1" "main" [approvals_rule 1] none).row.requiredApprovalsCount = toString 1 ∧
    (process [rules_only_input "repo1" "main" [approvals_rule 1]]).2.2 =
      [{ repo := "repo1",
         issues := (check_repo "repo1" "main" [approvals_rule 1] none).issues }] :=
  c3 "repo1" "main" [approvals_rule 1] (approvals_rule 1) 1 rfl rfl (by decide)

/-! ## C4 -/

/-- An approval-mismatch issue is one starting with the fixed prefix of
the mismatch message. -/
def is_approval_mismatch (s : String) : Bool :=
  "Required approvals = ".toList.isPrefixOf s.toList

/-- C4: when the modern rule set carries a `required_approving_review_count`
rule whose parameters yield count 2, the record has approval-count "2"
and no approval-mismatch issue is in its issue list. -/
theorem c4 (name branch : String) (rules : List Rule) (r : Rule)
    (hr : rule_of_type rules "required_approving_review_count" = some r)
    (hc : extract_count (r.parameters.getD empty_params) = some 2) :
    (check_repo name branch rules none).row.requiredApprovalsCount = "2" ∧
    ∀ s ∈ (check_repo name branch rules none).issues, is_approval_mismatch s = false := by
  have hne := rule_of_type_isEmpty_false hr
  rw [check_repo_rules_path hne]
  constructor
  · exact check_rules_extracted_col hr hc name branch
  · intro s hs
    rcases check_rules_extracted_eq2 hr hc name branch s hs with h | h | h <;>
      subst h <;> decide

/-- C4 witness: a single approvals rule with count 2; no issue of the
resulting record is an approval mismatch (shown at the deletions issue,
which that record does carry). -/
theorem c4_witness :
    (check_repo "repo1" "main" [approvals_rule 2] none).row.requiredApprovalsCount = "2" ∧
    is_approval_mismatch "Restrict deletions rule not enabled" = false :=
  ⟨(c4 "repo1" "main" [approvals_rule 2] (approvals_rule 2) rfl rfl).1,
   (c4 "repo1" "main" [approvals_rule 2] (approvals_rule 2) rfl rfl).2
     "Restrict deletions rule not enabled" (by decide)⟩

/-! ## C5 -/

/-- Core pagination lemma: against a server that serves the suffix `l`
of the repository list in pages of 100 starting at page `p`, the loop
terminates within `l.length / 100 + 1` iterations, returns all of `l`
appended to the accumulator in order, and issues exactly
`l.length / 100 + 1` page requests. -/
theorem list_repos_loop_pages (fuel : Nat) :
    ∀ (l : List RepoDesc) (fetch : Nat → Option (List RepoDesc)) (p : Nat)
      (acc : List RepoDesc) (reqs : Nat),
      (∀ q, p ≤ q → fetch q = some ((l.drop ((q - p) * 100)).take 100)) →
      l.length / 100 + 1 ≤ fuel →
      list_repos_loop fetch fuel p acc reqs =
        some (acc ++ l, reqs + (l.length / 100 + 1)) := by
  induction fuel with
  | zero =>
    intro l fetch p acc reqs _ hfuel
    omega
  | succ f ih =>
    intro l fetch p acc reqs hf hfuel
    have hp : fetch p = some (l.take 100) := by
      have := hf p (Nat.le_refl p)
      simpa using this
    rw [list_repos_loop, hp]
    dsimp only
    by_cases hnil : l = []
    · subst hnil
      simp
    · have hne : (l.take 100).isEmpty = false := by
        cases l with
        | nil => exact absurd rfl hnil
        | cons a t => rfl
      rw [hne]
      simp only [Bool.false_eq_true, if_false]
      by_cases hlen : l.length < 100
      · have htake : l.take 100 = l := List.take_of_length_le (Nat.le_of_lt hlen)
        rw [htake, if_pos hlen]
        have hz : l.length / 100 = 0 := Nat.div_eq_of_lt hlen
        rw [hz]
      · have hlen100 : (l.take 100).length = 100 := by
          rw [List.length_take]
          omega
        rw [if_neg (by rw [hlen100]; omega)]
        have hrec := ih (l.drop 100) fetch (p + 1) (acc ++ l.take 100) (reqs + 1) ?_ ?_
        · rw [hrec, List.append_assoc, List.take_append_drop]
          have hlist : (l.drop 100).length = l.length - 100 := by
            rw [List.length_drop]
          rw [hlist]
          have h1 : (l.length - 100) / 100 + 1 = l.length / 100 := by omega
          rw [h1]
          have h2 : reqs + 1 + l.length / 100 = reqs + (l.length / 100 + 1) := by omega
          rw [h2]
        · intro q hq
          have hfq := hf q (by omega)
          rw [hfq, List.drop_drop]
          have harith : 100 + (q - (p + 1)) * 100 = (q - p) * 100 := by
            obtain ⟨d, hd⟩ : ∃ d, q - p = d + 1 := ⟨q - p - 1, by omega⟩
            have hd2 : q - (p + 1) = d := by omega
            rw [hd, hd2]
            ring
          rw [harith]
        · rw [List.length_drop]
          omega

/-- C5: the lister terminates against any finite repository list; when
the list does not split into full pages only (its final page is short),
the loop makes exactly the ceiling of n/100 page requests, at least one,
and returns the list with archived entries filtered out.  A failed page
fetch terminates the loop immediately after that request. -/
theorem c5 (allRepos : List RepoDesc) (h : allRepos.length % 100 ≠ 0) :
    (list_repos (page_slice allRepos) (allRepos.length / 100 + 1) =
        some (allRepos.filter (fun r => !r.archived), (allRepos.length + 99) / 100) ∧
      1 ≤ (allRepos.length + 99) / 100) ∧
    ∀ (fetch : Nat → Option (List RepoDesc)) (f p : Nat)
      (acc : List RepoDesc) (reqs : Nat),
      fetch p = none →
      list_repos_loop fetch (f + 1) p acc reqs = some (acc, reqs + 1) := by
  constructor
  · constructor
    · have hloop := list_repos_loop_pages (allRepos.length / 100 + 1) allRepos
        (page_slice allRepos) 1 [] 0 (fun q _ => rfl) (Nat.le_refl _)
      rw [list_repos, hloop]
      have heq : 0 + (allRepos.length / 100 + 1) = (allRepos.length + 99) / 100 := by omega
      rw [List.nil_append, heq]
    · omega
  · intro fetch f p acc reqs hnone
    rw [list_repos_loop, hnone]

/-- A concrete repository descriptor for the C5 witness. -/
def demo_repo : RepoDesc := { name := "repo1", default_branch := some "main", archived := false }

/-- C5 witness: a one-element repository list takes exactly one page
request. -/
theorem c5_witness :
    (list_repos (page_slice [demo_repo]) ([demo_repo].length / 100 + 1) =
        some ([demo_repo].filter (fun r => !r.archived), ([demo_repo].length + 99) / 100) ∧
      1 ≤ ([demo_repo].length + 99) / 100) :=
  (c5 [demo_repo] (by decide)).1

/-! ## C6 -/

/-- A pull-request rule, used as a sample non-empty modern response. -/
def pr_rule : Rule := { type := some "pull_request", parameters := none }

/-- C6: the legacy endpoint is consulted exactly when the modern rules
result is empty, and with a non-empty rule list the record does not
depend on the legacy response at all. -/
theorem c6 (name branch : String) (rules : List Rule) (c c1 c2 : Option Classic) :
    ((check_repo name branch rules c).legacyQueried = true ↔ rules = []) ∧
    (rules ≠ [] → check_repo name branch rules c1 = check_repo name branch rules c2) := by
  constructor
  · cases rules with
    | nil =>
      cases c with
      | none => simp [check_repo]
      | some cc => simp [check_repo]
    | cons a t => simp [check_repo]
  · intro hne
    have hie : rules.isEmpty = false := by
      cases rules with
      | nil => exact absurd rfl hne
      | cons a t => rfl
    rw [check_repo_rules_path hie, check_repo_rules_path hie]

/-- C6 witness: with one rule present the legacy response is irrelevant,
and with no rules the legacy endpoint is consulted. -/
theorem c6_witness :
    check_repo "repo1" "main" [pr_rule] none =
      check_repo "repo1" "main" [pr_rule] (some demo_classic_empty) ∧
    (check_repo "repo1" "main" ([] : List Rule) none).legacyQueried = true :=
  ⟨(c6 "repo1" "main" [pr_rule] none none (some demo_classic_empty)).2 (by decide),
   (c6 "repo1" "main" [] none none none).1.mpr rfl⟩

/-! ## C7 -/

/-- C7: when both the bot token and the channel are configured the
notifier takes the upload path (never the webhook), and the webhook path
is taken exactly when the token-channel pair is not fully configured and
the webhook is set. -/
theorem c7 (token channel webhook : Option String) :
    (truthyStr token = true → truthyStr channel = true →
      notify_action token channel webhook = NotifyAction.slackUpload) ∧
    (notify_action token channel webhook = NotifyAction.webhookPost ↔
      (¬(truthyStr token = true ∧ truthyStr channel = true) ∧ truthyStr webhook = true)) := by
  constructor
  · intro ht hc
    simp [notify_action, ht, hc]
  · unfold notify_action
    by_cases ht : truthyStr token = true <;> by_cases hc : truthyStr channel = true <;>
      by_cases hw : truthyStr webhook = true <;> simp_all

/-- C7 witness: all three settings configured selects the upload path
and not the webhook. -/
theorem c7_witness :
    notify_action (some "t") (some "c") (some "w") = NotifyAction.slackUpload ∧
    notify_action (some "t") (some "c") (some "w") ≠ NotifyAction.webhookPost :=
  ⟨(c7 (some "t") (some "c") (some "w")).1 rfl rfl,
   fun heq => (((c7 (some "t") (some "c") (some "w")).2.mp heq).1 ⟨rfl, rfl⟩)⟩

/-! ## Closed form of the main loop -/

/-- Generalized closed form of the accumulation loop: rows collect every
repository in order, `ok` collects the names of the repositories with an
empty issue list, `missing` the rest with their issues. -/
theorem process_foldl (inputs : List RepoInput) :
    ∀ (rows : List Row) (ok : List String) (missing : List MissingEntry),
      inputs.foldl process_step (rows, ok, missing) =
        (rows ++ inputs.map (fun i => (process_repo i).row),
         ok ++ (inputs.filter (fun i => (process_repo i).issues.isEmpty)).map
           (fun i => i.desc.name),
         missing ++ (inputs.filter (fun i => !(process_repo i).issues.isEmpty)).map
           (fun i => { repo := i.desc.name, issues := (process_repo i).issues })) := by
  induction inputs with
  | nil =>
    intro rows ok missing
    simp
  | cons i t ih =>
    intro rows ok missing
    rw [List.foldl_cons, ih]
    by_cases h : (process_repo i).issues.isEmpty
    · simp [process_step, h, List.filter_cons]
    · simp [process_step, h, List.filter_cons]

/-- The main loop in closed form. -/
theorem process_spec (inputs : List RepoInput) :
    process inputs =
      (inputs.map (fun i => (process_repo i).row),
       (inputs.filter (fun i => (process_repo i).issues.isEmpty)).map
         (fun i => i.desc.name),
       (inputs.filter (fun i => !(process_repo i).issues.isEmpty)).map
         (fun i => { repo := i.desc.name, issues := (process_repo i).issues })) := by
  have h := process_foldl inputs [] [] []
  simpa [process] using h

/-- Filtering a list by a predicate and by its negation splits its
length. -/
theorem length_filter_add_length_filter_not {α : Type} (p : α → Bool) (l : List α) :
    (l.filter p).length + (l.filter (fun a => !(p a))).length = l.length := by
  induction l with
  | nil => rfl
  | cons a t ih =>
    by_cases h : p a <;> simp [List.filter_cons, h] <;> omega

/-! ## Row boolean-rendering invariant -/

/-- The four flag columns of a row hold the literal "YES" or "NO". -/
def RowBoolsOk (r : Row) : Prop :=
  (r.protectionExists = "YES" ∨ r.protectionExists = "NO") ∧
  (r.requiredPullRequest = "YES" ∨ r.requiredPullRequest = "NO") ∧
  (r.restrictDeletions = "YES" ∨ r.restrictDeletions = "NO") ∧
  (r.blockForcePushes = "YES" ∨ r.blockForcePushes = "NO")

/-- The pull-request step preserves the flag invariant. -/
theorem RowBoolsOk_pr_step {row : Row} (h : RowBoolsOk row) (rules : List Rule) :
    RowBoolsOk (rules_pr_step row rules).1 := by
  unfold rules_pr_step
  split
  · exact ⟨h.1, Or.inl rfl, h.2.2.1, h.2.2.2⟩
  · exact h

/-- The approvals step preserves the flag invariant. -/
theorem RowBoolsOk_approvals_step {row : Row} (h : RowBoolsOk row)
    (is : List String) (rules : List Rule) :
    RowBoolsOk (rules_approvals_step row is rules).1 := by
  unfold rules_approvals_step
  split
  · split
    · split
      · exact ⟨h.1, h.2.1, h.2.2.1, h.2.2.2⟩
      · exact ⟨h.1, h.2.1, h.2.2.1, h.2.2.2⟩
    · exact h
  · exact h

/-- The deletions step preserves the flag invariant. -/
theorem RowBoolsOk_deletions_step {row : Row} (h : RowBoolsOk row)
    (is : List String) (rules : List Rule) :
    RowBoolsOk (rules_deletions_step row is rules).1 := by
  unfold rules_deletions_step
  split
  · exact ⟨h.1, h.2.1, Or.inl rfl, h.2.2.2⟩
  · exact h

/-- The force-push step preserves the flag invariant. -/
theorem RowBoolsOk_force_push_step {row : Row} (h : RowBoolsOk row)
    (is : List String) (rules : List Rule) :
    RowBoolsOk (rules_force_push_step row is rules).1 := by
  unfold rules_force_push_step
  split
  · exact ⟨h.1, h.2.1, h.2.2.1, Or.inl rfl⟩
  · exact h

/-- The classic reviews step preserves the flag invariant. -/
theorem RowBoolsOk_classic_reviews_step {row : Row} (h : RowBoolsOk row) (c : Classic) :
    RowBoolsOk (classic_reviews_step row c).1 := by
  unfold classic_reviews_step
  split
  · exact h
  · dsimp only
    split
    · exact ⟨h.1, Or.inl rfl, h.2.2.1, h.2.2.2⟩
    · exact ⟨h.1, Or.inl rfl, h.2.2.1, h.2.2.2⟩

/-- The classic restrictions step preserves the flag invariant. -/
theorem RowBoolsOk_classic_restrictions_step {row : Row} (h : RowBoolsOk row) (c : Classic) :
    RowBoolsOk (classic_restrictions_step row c) := by
  unfold classic_restrictions_step
  split
  · exact ⟨h.1, h.2.1, Or.inl rfl, h.2.2.2⟩
  · exact h

/-- The classic force-push step preserves the flag invariant. -/
theorem RowBoolsOk_classic_force_push_step {row : Row} (h : RowBoolsOk row) (c : Classic) :
    RowBoolsOk (classic_force_push_step row c) := by
  unfold classic_force_push_step
  split
  · split
    · exact ⟨h.1, h.2.1, h.2.2.1, Or.inl rfl⟩
    · exact h
  · exact h

/-- Every row produced by the per-repository check renders its four flag
columns as "YES" or "NO". -/
theorem RowBoolsOk_check_repo (name branch : String) (rules : List Rule)
    (classic : Option Classic) :
    RowBoolsOk (check_repo name branch rules classic).row := by
  have hinit : RowBoolsOk { init_row name branch with protectionExists := "YES" } :=
    ⟨Or.inl rfl, Or.inr rfl, Or.inr rfl, Or.inr rfl⟩
  unfold check_repo
  split
  · cases classic with
    | some c =>
      exact RowBoolsOk_classic_force_push_step
        (RowBoolsOk_classic_restrictions_step
          (RowBoolsOk_classic_reviews_step hinit c) c) c
    | none => exact ⟨Or.inr rfl, Or.inr rfl, Or.inr rfl, Or.inr rfl⟩
  · exact RowBoolsOk_force_push_step
      (RowBoolsOk_deletions_step
        (RowBoolsOk_approvals_step (RowBoolsOk_pr_step hinit rules) _ rules) _ rules) _ rules

/-! ## C8 -/

/-- C8: the CSV consists of the fixed ordered header followed by exactly
one row per repository in listing order, and every flag column of every
produced record is the literal "YES" or "NO". -/
theorem c8 (inputs : List RepoInput) :
    write_csv (process inputs).1 =
      ["Repository", "Default Branch", "Default branch protection exists",
       "Required pull request", "Required approvals count",
       "Restrict deletions", "Block Force pushes"]
      :: inputs.map (fun i => row_cells (process_repo i).row) ∧
    ∀ i ∈ inputs, RowBoolsOk (process_repo i).row := by
  constructor
  · rw [process_spec]
    simp [write_csv, fieldnames]
  · intro i _
    exact RowBoolsOk_check_repo _ _ _ _

/-- C8 witness: a two-repository run, with the flag invariant
instantiated at the first repository. -/
theorem c8_witness :
    write_csv (process [rules_only_input "repo1" "main" [approvals_rule 2],
        rules_only_input "repo2" "main" []]).1 =
      ["Repository", "Default Branch", "Default branch protection exists",
       "Required pull request", "Required approvals count",
       "Restrict deletions", "Block Force pushes"]
      :: [rules_only_input "repo1" "main" [approvals_rule 2],
          rules_only_input "repo2" "main" []].map
        (fun i => row_cells (process_repo i).row) ∧
    RowBoolsOk (process_repo (rules_only_input "repo1" "main" [approvals_rule 2])).row :=
  ⟨(c8 [rules_only_input "repo1" "main" [approvals_rule 2],
      rules_only_input "repo2" "main" []]).1,
   (c8 [rules_only_input "repo1" "main" [approvals_rule 2],
      rules_only_input "repo2" "main" []]).2
     (rules_only_input "repo1" "main" [approvals_rule 2]) (by simp)⟩

/-! ## C9 -/

/-- C9: every listed repository contributes exactly one row; the `ok`
list holds exactly the names of the repositories whose issue list is
empty and `missing` exactly the others with their issues; the two
partition the run, so their sizes add up to the number of rows and of
repositories. -/
theorem c9 (inputs : List RepoInput) :
    (process inputs).1.length = inputs.length ∧
    (process inputs).2.1 =
      (inputs.filter (fun i => (process_repo i).issues.isEmpty)).map
        (fun i => i.desc.name) ∧
    (process inputs).2.2 =
      (inputs.filter (fun i => !(process_repo i).issues.isEmpty)).map
        (fun i => { repo := i.desc.name, issues := (process_repo i).issues }) ∧
    (process inputs).2.1.length + (process inputs).2.2.length = inputs.length ∧
    (process inputs).2.1.length + (process inputs).2.2.length = (process inputs).1.length := by
  rw [process_spec]
  refine ⟨by simp, rfl, rfl, ?_, ?_⟩ <;>
    simpa using length_filter_add_length_filter_not
      (fun i => (process_repo i).issues.isEmpty) inputs

/-- C9 witness: the partition invariant at a concrete one-repository
run. -/
theorem c9_witness :
    (process [rules_only_input "repo1" "main" []]).1.length =
      [rules_only_input "repo1" "main" []].length ∧
    (process [rules_only_input "repo1" "main" []]).2.1 =
      ([rules_only_input "repo1" "main" []].filter
        (fun i => (process_repo i).issues.isEmpty)).map (fun i => i.desc.name) ∧
    (process [rules_only_input "repo1" "main" []]).2.2 =
      ([rules_only_input "repo1" "main" []].filter
        (fun i => !(process_repo i).issues.isEmpty)).map
        (fun i => { repo := i.desc.name, issues := (process_repo i).issues }) ∧
    (process [rules_only_input "repo1" "main" []]).2.1.length +
      (process [rules_only_input "repo1" "main" []]).2.2.length =
      [rules_only_input "repo1" "main" []].length ∧
    (process [rules_only_input "repo1" "main" []]).2.1.length +
      (process [rules_only_input "repo1" "main" []]).2.2.length =
      (process [rules_only_input "repo1" "main" []]).1.length :=
  c9 [rules_only_input "repo1" "main" []]

/-! ## C10 -/

/-- With the approvals rule present but no truthy count extractable, the
approvals step leaves the row unchanged and appends the count-missing
issue. -/
theorem rules_approvals_step_count_missing {rules : List Rule} {r : Rule}
    (hr : rule_of_type rules "required_approving_review_count" = some r)
    (hc : extract_count (r.parameters.getD empty_params) = none)
    (row : Row) (is : List String) :
    rules_approvals_step row is rules =
      (row, is ++ ["Approvals rule present but count missing"]) := by
  unfold rules_approvals_step
  rw [hr]
  simp only [hc]

/-- The classic restrictions step changes neither the PR column nor the
approval-count column. -/
theorem classic_restrictions_step_cols (row : Row) (c : Classic) :
    (classic_restrictions_step row c).requiredPullRequest = row.requiredPullRequest ∧
    (classic_restrictions_step row c).requiredApprovalsCount = row.requiredApprovalsCount := by
  unfold classic_restrictions_step
  split
  · exact ⟨rfl, rfl⟩
  · exact ⟨rfl, rfl⟩

/-- The classic force-push step changes neither the PR column nor the
approval-count column. -/
theorem classic_force_push_step_cols (row : Row) (c : Classic) :
    (classic_force_push_step row c).requiredPullRequest = row.requiredPullRequest ∧
    (classic_force_push_step row c).requiredApprovalsCount = row.requiredApprovalsCount := by
  unfold classic_force_push_step
  split
  · split
    · exact ⟨rfl, rfl⟩
    · exact ⟨rfl, rfl⟩
  · exact ⟨rfl, rfl⟩

/-- With an empty rules list and a classic response, `check_repo` takes
the legacy path. -/
theorem check_repo_classic_path (name branch : String) (c : Classic) :
    check_repo name branch [] (some c) =
      { row := (check_classic name branch c).1,
        issues := (check_classic name branch c).2,
        legacyQueried := true } := rfl

/-- A classic-protection body whose reviews object carries approval
count 0. -/
def demo_classic_zero : Classic :=
  { required_pull_request_reviews := some { required_approving_review_count := some 0 }
    restrictions := false
    allow_force_pushes := none }

/-- C10: a required approval count of 0 is handled asymmetrically.  In
the modern path a falsy extracted count is treated as missing: the
count-missing issue is flagged and the approval column stays empty.  In
the legacy path a count of 0 sets the PR flag, leaves the approval
column empty, and flags the mismatch issue naming 0. -/
theorem c10 (name branch : String) (rules : List Rule) (r : Rule) (c : Classic)
    (pr : PRReviews)
    (hr : rule_of_type rules "required_approving_review_count" = some r)
    (hc : extract_count (r.parameters.getD empty_params) = none)
    (hpr : c.required_pull_request_reviews = some pr)
    (hcnt : pr.required_approving_review_count.getD 0 = 0) :
    ("Approvals rule present but count missing" ∈
        (check_repo name branch rules none).issues ∧
      (check_repo name branch rules none).row.requiredApprovalsCount = "") ∧
    ((check_repo name branch [] (some c)).row.requiredPullRequest = "YES" ∧
      (check_repo name branch [] (some c)).row.requiredApprovalsCount = "" ∧
      (check_repo name branch [] (some c)).issues =
        ["Required approvals = 0, expected 2"]) := by
  have hne := rule_of_type_isEmpty_false hr
  have hreviews : classic_reviews_step
      { init_row name branch with protectionExists := "YES" } c =
      ({ { init_row name branch with protectionExists := "YES" } with
          requiredPullRequest := "YES", requiredApprovalsCount := "" },
        ["Required approvals = 0, expected 2"]) := by
    unfold classic_reviews_step
    rw [hpr]
    dsimp only
    rw [hcnt]
    norm_num
    rfl
  constructor
  · rw [check_repo_rules_path hne]
    constructor
    · simp only [check_rules]
      rw [rules_approvals_step_count_missing hr hc]
      exact rules_force_push_step_mem (rules_deletions_step_mem (by simp) _ _) _ _
    · simp only [check_rules]
      rw [rules_approvals_step_count_missing hr hc]
      rw [rules_tail_steps_col]
      exact (rules_pr_step_cases _ rules).1
  · rw [check_repo_classic_path]
    simp only [check_classic]
    rw [hreviews]
    refine ⟨?_, ?_, rfl⟩
    · rw [(classic_force_push_step_cols _ _).1, (classic_restrictions_step_cols _ _).1]
    · rw [(classic_force_push_step_cols _ _).2, (classic_restrictions_step_cols _ _).2]

/-- C10 witness: an approvals rule whose parameters carry count 0, and a
classic response whose reviews object carries count 0. -/
theorem c10_witness :
    ("Approvals rule present but count missing" ∈
        (check_repo "repo1" "main" [approvals_rule 0] none).issues ∧
      (check_repo "repo1" "main" [approvals_rule 0] none).row.requiredApprovalsCount = "") ∧
    ((check_repo "repo1" "main" [] (some demo_classic_zero)).row.requiredPullRequest = "YES" ∧
      (check_repo "repo1" "main" [] (some demo_classic_zero)).row.requiredApprovalsCount = "" ∧
      (check_repo "repo1" "main" [] (some demo_classic_zero)).issues =
        ["Required approvals = 0, expected 2"]) :=
  c10 "repo1" "main" [approvals_rule 0] (approvals_rule 0) demo_classic_zero
    { required_approving_review_count := some 0 } rfl rfl rfl rfl

end BranchProtectionAudit
